import Mathlib

/-!
Verification development for the TopstepX → Notion round-trip sync tool.

Shallow embedding of the core of the repository:
  * `roundtrip_transformer.py` — the Matcher (`RoundtripTransformer.transform`,
    `_find_matching_entry`, `_create_roundtrip`) and the Aggregator
    (`get_statistics`, `_group_stats`);
  * `notion_client.py` — the SyncEngine (`NotionRoundtripClient.sync_roundtrips`);
  * `main.py` — the Scheduler (`AutoSyncManager`).

Modelling conventions:
  * Python floats are modelled as rationals (`ℚ`); `round(x, n)` is modelled as
    round-half-to-even on the rational value (`roundHalfEven`), matching Python's
    `round` tie-breaking; `int(x)` on a float is truncation toward zero (`ratTrunc`).
  * Trade records are Python dicts; the spec's data model (§3) fixes their fields,
    so they are embedded as a structure `Trade` with the fields the code reads.
    `creationTimestamp` is modelled as a rational instant: the code sorts by the ISO
    timestamp string and parses it with `parse_timestamp` for durations, and for
    well-formed ISO-8601 timestamps of one account lexicographic order coincides
    with chronological order, so the model carries the instant directly and
    `parse_timestamp` becomes the identity.
  * Network effects are oracles: the existence query of `sync_roundtrips` is a
    value of `Except String (List String)` (an exception propagates, `.ok` is the
    fetched key set) and per-entry creation success is a function
    `Roundtrip → Bool` (`create_roundtrip_entry` raising is caught by the code).
  * The scheduler's mutable object state is a structure `SchedulerState`; its
    methods are state transformers. The `_run_loop` worker thread is modelled
    at the granularity of its atomic statements (`LoopPc`, `loopStep`,
    `SchedulerSystem`): the `while`-guard read, the `next_sync_time` write and
    each wait-loop stop check are separate steps, so caller-thread `stop()`
    calls can interleave anywhere between them, as in the real program.
-/

/-- Round-half-to-even of a rational to an integer: the model of Python's
`round(x)` tie-breaking (banker's rounding). -/
def roundHalfEven (q : ℚ) : ℤ :=
  let f : ℤ := q.floor
  let frac : ℚ := q - f
  if frac < 1/2 then f
  else if 1/2 < frac then f + 1
  else if f % 2 = 0 then f else f + 1

/-- Model of Python's `round(x, 2)` on the rational model of floats. -/
def round2 (q : ℚ) : ℚ := (roundHalfEven (q * 100) : ℚ) / 100

/-- Model of Python's `round(x, 1)` on the rational model of floats. -/
def round1 (q : ℚ) : ℚ := (roundHalfEven (q * 10) : ℚ) / 10

/-- Model of Python's `int(x)` on a float: truncation toward zero. -/
def ratTrunc (q : ℚ) : ℤ := Int.tdiv q.num q.den

/-- One half-turn trade record as returned by the TopstepX API
(`roundtrip_transformer.py` docstring and the fields the code reads):
`side` is `0` for BUY and `1` for SELL, `profitAndLoss` is `none` for an
opening leg (entry) and `some pnl` for a closing leg (exit). -/
structure Trade where
  id : ℤ
  orderId : ℤ
  contractId : String
  side : ℕ
  size : ℤ
  price : ℚ
  fees : ℚ
  creationTimestamp : ℚ
  profitAndLoss : Option ℚ
deriving DecidableEq, Repr

/-- `format_duration` (roundtrip_transformer.py:59-70): render a number of
seconds as a human-readable Japanese string. -/
def formatDuration (seconds : ℤ) : String :=
  if seconds < 60 then
    toString seconds ++ "秒"
  else if seconds < 3600 then
    toString (seconds / 60) ++ "分" ++ toString (seconds % 60) ++ "秒"
  else
    toString (seconds / 3600) ++ "時間" ++ toString (seconds % 3600 / 60) ++ "分"

/-- `True` iff `sub` occurs as a substring of `s`: model of Python's
`sub in s` on strings, via `splitOn` (which returns a singleton exactly when
the separator does not occur). -/
def containsSub (s sub : String) : Bool := (s.splitOn sub).length != 1

/-- `extract_contract_symbol` (roundtrip_transformer.py:44-56): extract the
instrument symbol from a contract id such as `CON.F.US.MNQ.Z25`. -/
def extractContractSymbol (contractId : String) : String :=
  let knownSymbols := ["MNQ", "MES", "NQ", "ES", "MCL", "MGC", "CL", "GC", "M2K", "MYM"]
  match knownSymbols.find? (fun symbol => containsSub contractId.toUpper symbol) with
  | some symbol => symbol
  | none =>
    let parts := contractId.splitOn "."
    if parts.length ≥ 4 then parts[3]! else contractId

/-- One leg reference inside a round-trip record (`_create_roundtrip`'s
`entry`/`exit` sub-dicts, roundtrip_transformer.py:186-201). -/
structure LegRef where
  trade_id : ℤ
  order_id : ℤ
  timestamp : ℚ
  price : ℚ
  side : String
  fees : ℚ
deriving DecidableEq, Repr

/-- A round-trip record (`_create_roundtrip`'s result dict,
roundtrip_transformer.py:180-208). -/
structure Roundtrip where
  roundtrip_id : ℕ
  contract : String
  contract_id : String
  direction : String
  size : ℤ
  entry : LegRef
  exit : LegRef
  pnl : ℚ
  total_fees : ℚ
  net_pnl : ℚ
  points : ℚ
  duration_seconds : ℤ
  duration_formatted : String
deriving DecidableEq, Repr

/-- `_create_roundtrip` (roundtrip_transformer.py:151-208): derive one
round-trip record from a paired entry and exit trade. -/
def createRoundtrip (roundtripId : ℕ) (contractId : String)
    (entryTrade exitTrade : Trade) : Roundtrip :=
  let direction := if entryTrade.side = 0 then "LONG" else "SHORT"
  let durationSeconds := ratTrunc (exitTrade.creationTimestamp - entryTrade.creationTimestamp)
  let entryPrice := entryTrade.price
  let exitPrice := exitTrade.price
  let points := if direction = "LONG" then exitPrice - entryPrice else entryPrice - exitPrice
  let entryFees := entryTrade.fees
  let exitFees := exitTrade.fees
  let totalFees := entryFees + exitFees
  let pnl := (exitTrade.profitAndLoss).getD 0
  let netPnl := pnl - totalFees
  { roundtrip_id := roundtripId
    contract := extractContractSymbol contractId
    contract_id := contractId
    direction := direction
    size := exitTrade.size
    entry := { trade_id := entryTrade.id, order_id := entryTrade.orderId,
               timestamp := entryTrade.creationTimestamp, price := entryPrice,
               side := if entryTrade.side = 0 then "BUY" else "SELL", fees := entryFees }
    exit := { trade_id := exitTrade.id, order_id := exitTrade.orderId,
              timestamp := exitTrade.creationTimestamp, price := exitPrice,
              side := if exitTrade.side = 0 then "BUY" else "SELL", fees := exitFees }
    pnl := pnl
    total_fees := totalFees
    net_pnl := round2 netPnl
    points := round2 points
    duration_seconds := durationSeconds
    duration_formatted := formatDuration durationSeconds }

/-- `_find_matching_entry` (roundtrip_transformer.py:138-149): scan the entry
queue in order for the first entry with `side` different from the exit's and
`size` equal to the exit's; remove it and return it together with the remaining
queue, or return `none` if no entry matches. -/
def findMatchingEntry (entryQueue : List Trade) (exitTrade : Trade) :
    Option (Trade × List Trade) :=
  match entryQueue with
  | [] => none
  | e :: rest =>
    if e.side ≠ exitTrade.side ∧ e.size = exitTrade.size then
      some (e, rest)
    else
      match findMatchingEntry rest exitTrade with
      | some (m, rest') => some (m, e :: rest')
      | none => none

/-- The exit-processing loop of `transform` (roundtrip_transformer.py:113-131)
for one contract: given the entry queue and the exits in timestamp order,
return the (entry, exit) pairs in processing order, the leftover entry queue
(the open positions of this contract) and the unmatched exits. -/
def processExits (entryQueue : List Trade) : List Trade →
    List (Trade × Trade) × List Trade × List Trade
  | [] => ([], entryQueue, [])
  | exitTrade :: rest =>
    match entryQueue with
    | [] =>
      let r := processExits [] rest
      (r.1, r.2.1, exitTrade :: r.2.2)
    | e0 :: q0 =>
      match findMatchingEntry (e0 :: q0) exitTrade with
      | some (entryTrade, queue1) =>
        let r := processExits queue1 rest
        ((entryTrade, exitTrade) :: r.1, r.2.1, r.2.2)
      | none =>
        let r := processExits q0 rest
        ((e0, exitTrade) :: r.1, r.2.1, r.2.2)

/-- Insert a key at the end of the key list unless already present: the key
order of a Python (default)dict, first occurrence first. -/
def insertKey (ks : List String) (k : String) : List String :=
  if k ∈ ks then ks else ks ++ [k]

/-- The contract ids of a trade list in first-occurrence order: the key order
of `trades_by_contract` built by `transform` (roundtrip_transformer.py:96-99). -/
def contractKeys (trades : List Trade) : List String :=
  trades.foldl (fun ks t => insertKey ks t.contractId) []

/-- `trades_by_contract` (roundtrip_transformer.py:96-99): group the trades by
`contractId`, keys in first-occurrence order, each group in input order. -/
def groupByContract (trades : List Trade) : List (String × List Trade) :=
  (contractKeys trades).map (fun k => (k, trades.filter (fun t => t.contractId = k)))

/-- The timestamp order used by `contract_trades.sort` (line 105). Python's
`list.sort` is a stable sort by key; it is modelled by a stable sort
(`List.insertionSort`) under the same key order. -/
def tsLe (a b : Trade) : Prop := a.creationTimestamp ≤ b.creationTimestamp

instance : DecidableRel tsLe := fun a b => by unfold tsLe; infer_instance

/-- The per-contract body of `transform` (roundtrip_transformer.py:103-131):
sort one contract's trades by timestamp (stable), split into entries
(`profitAndLoss` absent) and exits (present), and run the matching loop. -/
def processContract (contractTrades : List Trade) :
    List (Trade × Trade) × List Trade × List Trade :=
  let sorted := contractTrades.insertionSort tsLe
  let entries := sorted.filter (fun t => t.profitAndLoss.isNone)
  let exits := sorted.filter (fun t => t.profitAndLoss.isSome)
  processExits entries exits

/-- The matching phase of `transform` (roundtrip_transformer.py:91-131),
before round-trip records are derived: the (contractId, entry, exit) pairs in
processing order across contract groups, the open positions and the unmatched
exits. -/
def matchTrades (trades : List Trade) :
    List (String × Trade × Trade) × List Trade × List Trade :=
  let results := (groupByContract trades).map
    (fun g => ((processContract g.2).1.map (fun p => (g.1, p)),
               (processContract g.2).2.1, (processContract g.2).2.2))
  ((results.map (fun r => r.1)).flatten,
   (results.map (fun r => r.2.1)).flatten,
   (results.map (fun r => r.2.2)).flatten)

/-- Number the pairs with the running `roundtrip_id` (starting at 1, line
101/124) and derive the round-trip records. -/
def mkRoundtrips (pairs : List (String × Trade × Trade)) : List Roundtrip :=
  (List.range pairs.length).zip pairs |>.map
    (fun ip => createRoundtrip (ip.1 + 1) ip.2.1 ip.2.2.1 ip.2.2.2)

/-- The final sort of `transform` (line 134): round-trips ascending by exit
timestamp (stable). -/
def rtLe (a b : Roundtrip) : Prop := a.exit.timestamp ≤ b.exit.timestamp

instance : DecidableRel rtLe := fun a b => by unfold rtLe; infer_instance

/-- `RoundtripTransformer.transform` (roundtrip_transformer.py:81-136): the
returned round-trip list. -/
def transform (trades : List Trade) : List Roundtrip :=
  (mkRoundtrips (matchTrades trades).1).insertionSort rtLe

/-- One group entry of `_group_stats` (roundtrip_transformer.py:258-269). -/
structure GroupStat where
  count : ℕ
  pnl : ℚ
  wins : ℕ
  losses : ℕ
deriving DecidableEq, Repr

/-- `_group_stats` (roundtrip_transformer.py:258-269): group the round-trips by
a string key and tally count, total pnl, wins (pnl > 0) and losses (pnl < 0)
per group.  The Python defaultdict holds its keys in first-occurrence order
and accumulates by repeated update; the grouped per-key tallies are the
tallies over the sublist of round-trips carrying that key. -/
def groupStats (keyOf : Roundtrip → String) (rts : List Roundtrip) :
    List (String × GroupStat) :=
  let keys := rts.foldl (fun ks rt => insertKey ks (keyOf rt)) []
  keys.map (fun k =>
    let group := rts.filter (fun rt => keyOf rt = k)
    (k, { count := group.length
          pnl := (group.map (fun rt => rt.pnl)).sum
          wins := (group.filter (fun rt => 0 < rt.pnl)).length
          losses := (group.filter (fun rt => rt.pnl < 0)).length }))

/-- Python's `max` over a non-empty collection (0 as a don't-care value for
the empty list, which the code never reaches). -/
def listMax : List ℚ → ℚ
  | [] => 0
  | x :: xs => xs.foldl max x

/-- Python's `min` over a non-empty collection (0 for the empty list, which
the code never reaches). -/
def listMin : List ℚ → ℚ
  | [] => 0
  | x :: xs => xs.foldl min x

/-- The statistics record returned by `get_statistics`
(roundtrip_transformer.py:236-256). -/
structure Statistics where
  total_roundtrips : ℕ
  winning_trades : ℕ
  losing_trades : ℕ
  breakeven_trades : ℕ
  win_rate : ℚ
  total_pnl : ℚ
  total_fees : ℚ
  total_net_pnl : ℚ
  avg_win : ℚ
  avg_loss : ℚ
  profit_factor : ℚ
  max_win : ℚ
  max_loss : ℚ
  avg_duration_seconds : ℤ
  avg_duration_formatted : String
  by_contract : List (String × GroupStat)
  by_direction : List (String × GroupStat)
  open_positions : ℕ
  unmatched_exits : ℕ
deriving DecidableEq, Repr

/-- The winners' gross profit of `get_statistics` (roundtrip_transformer.py:226):
`gross_profit = sum(rt['pnl'] for rt in winners)`. -/
def grossProfit (rts : List Roundtrip) : ℚ :=
  ((rts.filter (fun rt => 0 < rt.pnl)).map (fun rt => rt.pnl)).sum

/-- The losers' gross loss of `get_statistics` (roundtrip_transformer.py:227):
`gross_loss = abs(sum(rt['pnl'] for rt in losers))`. -/
def grossLoss (rts : List Roundtrip) : ℚ :=
  |((rts.filter (fun rt => rt.pnl < 0)).map (fun rt => rt.pnl)).sum|

/-- `RoundtripTransformer.get_statistics` (roundtrip_transformer.py:210-256).
The method reads `self.roundtrips`, `self.open_positions` and
`self.unmatched_exits`; those are passed explicitly here.  For an empty
round-trip list the Python code returns the empty dict `{}` (line 212-213),
modelled as `none`; otherwise it returns the full statistics record,
modelled as `some`. -/
def getStatistics (roundtrips : List Roundtrip)
    (openPositions unmatchedExits : List Trade) : Option Statistics :=
  match roundtrips with
  | [] => none
  | _ :: _ =>
    let total := roundtrips.length
    let winners := roundtrips.filter (fun rt => 0 < rt.pnl)
    let losers := roundtrips.filter (fun rt => rt.pnl < 0)
    let breakeven := roundtrips.filter (fun rt => rt.pnl = 0)
    let totalPnl := (roundtrips.map (fun rt => rt.pnl)).sum
    let totalFees := (roundtrips.map (fun rt => rt.total_fees)).sum
    let avgWin := if winners ≠ [] then (winners.map (fun rt => rt.pnl)).sum / winners.length else 0
    let avgLoss := if losers ≠ [] then (losers.map (fun rt => rt.pnl)).sum / losers.length else 0
    let profitFactor :=
      if 0 < grossLoss roundtrips then round2 (grossProfit roundtrips / grossLoss roundtrips)
      else 0
    let avgDuration := ((roundtrips.map (fun rt => (rt.duration_seconds : ℚ))).sum) / total
    some
      { total_roundtrips := total
        winning_trades := winners.length
        losing_trades := losers.length
        breakeven_trades := breakeven.length
        win_rate := round1 ((winners.length : ℚ) / total * 100)
        total_pnl := round2 totalPnl
        total_fees := round2 totalFees
        total_net_pnl := round2 (totalPnl - totalFees)
        avg_win := round2 avgWin
        avg_loss := round2 avgLoss
        profit_factor := profitFactor
        max_win := round2 (listMax (roundtrips.map (fun rt => rt.pnl)))
        max_loss := round2 (listMin (roundtrips.map (fun rt => rt.pnl)))
        avg_duration_seconds := ratTrunc avgDuration
        avg_duration_formatted := formatDuration (ratTrunc avgDuration)
        by_contract := groupStats (fun rt => rt.contract) roundtrips
        by_direction := groupStats (fun rt => rt.direction) roundtrips
        open_positions := openPositions.length
        unmatched_exits := unmatchedExits.length }

/-- The counter triple returned by `sync_roundtrips`
(notion_client.py:252, `{"created": 0, "skipped": 0, "errors": 0}`). -/
structure SyncStats where
  created : ℕ
  skipped : ℕ
  errors : ℕ
deriving DecidableEq, Repr

/-- The idempotency key of one round-trip (notion_client.py:263-266):
`f"{entry_id}-{exit_id}"` over the two leg trade ids. -/
def rtKey (rt : Roundtrip) : String :=
  toString rt.entry.trade_id ++ "-" ++ toString rt.exit.trade_id

/-- The per-round-trip body of the `sync_roundtrips` loop
(notion_client.py:262-282): skip if the key is known, otherwise attempt the
create and tally success or failure; `createOk` is the oracle for whether
`create_roundtrip_entry` succeeds on this record (an exception there is
caught, line 280-282). -/
def syncStep (existing : List String) (createOk : Roundtrip → Bool)
    (stats : SyncStats) (rt : Roundtrip) : SyncStats :=
  if rtKey rt ∈ existing then { stats with skipped := stats.skipped + 1 }
  else if createOk rt then { stats with created := stats.created + 1 }
  else { stats with errors := stats.errors + 1 }

/-- `NotionRoundtripClient.sync_roundtrips` (notion_client.py:235-284).
`queryExisting` is the outcome of `get_existing_roundtrip_ids` (line 258): an
exception there is uncaught and aborts the call (`Except.error`); on success
it is the fetched existing-key set.  With `skip_existing = False` the
existing set stays empty and the query is not consulted (line 255-256). -/
def syncRoundtrips (queryExisting : Except String (List String))
    (createOk : Roundtrip → Bool) (roundtrips : List Roundtrip)
    (skipExisting : Bool) : Except String SyncStats := do
  let existing ← if skipExisting then queryExisting else pure []
  pure (roundtrips.foldl (syncStep existing createOk) ⟨0, 0, 0⟩)

/-- The keys a run of `sync_roundtrips` against existing-key set `existing`
successfully writes: those of the round-trips that are not skipped and whose
create succeeds. -/
def successfulKeys (existing : List String) (createOk : Roundtrip → Bool)
    (roundtrips : List Roundtrip) : List String :=
  (roundtrips.filter
    (fun rt => !decide (rtKey rt ∈ existing) && createOk rt)).map rtKey

/-- The mutable state of `AutoSyncManager` (main.py:504-513): the running
flag, the configured interval, the next scheduled sync instant (`none` when
cleared), the `threading.Event` stop signal, and whether a `_run_loop` thread
is live. -/
structure SchedulerState where
  is_running : Bool
  interval_minutes : ℕ
  next_sync_time : Option ℚ
  stop_event : Bool
  loop_active : Bool
deriving DecidableEq, Repr

/-- `AutoSyncManager.start` (main.py:515-524): a no-op while running;
otherwise record the interval, set the running flag, clear the stop signal
and launch the wait-loop thread. -/
def schedStart (s : SchedulerState) (intervalMinutes : ℕ) : SchedulerState :=
  if s.is_running then s
  else { s with interval_minutes := intervalMinutes
                is_running := true
                stop_event := false
                loop_active := true }

/-- `AutoSyncManager.stop` (main.py:526-529): clear the running flag, set the
stop signal and clear the next sync instant. -/
def schedStop (s : SchedulerState) : SchedulerState :=
  { s with is_running := false
           stop_event := true
           next_sync_time := none }

/-- The program counter of the `_run_loop` thread (main.py:531-542), one
value per atomic statement of the loop body:
  * `atGuard` — about to evaluate the `while` condition (line 532);
  * `atAssign` — the guard was observed true, about to execute the
    `next_sync_time` assignment (line 533);
  * `inWait t` — inside the 1-second wait loop (lines 536-539) with `t`
    iterations left;
  * `atPostWait` — past the wait, about to evaluate the pre-callback guard
    (line 541) and loop;
  * `exited` — `_run_loop` returned. -/
inductive LoopPc where
  | atGuard
  | atAssign
  | inWait (ticksLeft : ℕ)
  | atPostWait
  | exited
deriving DecidableEq, Repr

/-- The scheduler state together with the wait-loop thread's position.
`start`/`stop` run on the caller's thread concurrently with `_run_loop`
(main.py:523 starts it as a separate `threading.Thread`), so an execution is
an arbitrary interleaving of the caller's calls with the loop thread's
atomic steps. -/
structure SchedulerSystem where
  sched : SchedulerState
  pc : LoopPc
deriving DecidableEq, Repr

/-- One atomic step of the `_run_loop` thread (main.py:531-542), taken at
instant `now`:
  * at the `while` guard (line 532) the thread reads `is_running` and the
    stop signal and either enters the body or exits;
  * the body's first statement (line 533) writes
    `next_sync_time = now + interval` minutes — a separate step from the
    guard, so a `stop()` on the caller's thread can interleave between the
    guard read and this write;
  * each wait iteration (lines 536-539) first checks the stop signal and
    returns if it is set, else sleeps one second;
  * after the whole wait (lines 541-542) the guard is re-read and the
    callback — which does not touch the scheduler's fields — runs before
    looping back to the `while` guard. -/
def loopStep (now : ℚ) (s : SchedulerSystem) : SchedulerSystem :=
  match s.pc with
  | .atGuard =>
    if s.sched.is_running ∧ s.sched.stop_event = false then
      { s with pc := .atAssign }
    else
      { s with pc := .exited, sched := { s.sched with loop_active := false } }
  | .atAssign =>
    { s with
        sched := { s.sched with
          next_sync_time := some (now + s.sched.interval_minutes * 60) }
        pc := .inWait (s.sched.interval_minutes * 60) }
  | .inWait ticksLeft =>
    match ticksLeft with
    | 0 => { s with pc := .atPostWait }
    | t + 1 =>
      if s.sched.stop_event then
        { s with pc := .exited, sched := { s.sched with loop_active := false } }
      else
        { s with pc := .inWait t }
  | .atPostWait => { s with pc := .atGuard }
  | .exited => s

/-- `AutoSyncManager.stop` (main.py:526-529) invoked from the caller's
thread, as a step of the combined system: it only touches the shared
scheduler fields, never the loop thread's position. -/
def sysStop (s : SchedulerSystem) : SchedulerSystem :=
  { s with sched := schedStop s.sched }

/-- Zero-padded two-digit rendering, the model of Python's `f"{n:02d}"` for
non-negative values. -/
def pad2 (n : ℕ) : String :=
  if n < 10 then "0" ++ toString n else toString n

/-- `AutoSyncManager.get_remaining_time` (main.py:544-554): the `MM:SS`
countdown to `next_sync_time`, the sentinel `"--:--"` when no sync is
scheduled, or `"同期中..."` once the deadline has passed. -/
def getRemainingTime (s : SchedulerState) (now : ℚ) : String :=
  match s.next_sync_time with
  | none => "--:--"
  | some t =>
    let remaining := t - now
    if remaining ≤ 0 then "同期中..."
    else
      let minutes := (remaining / 60).floor
      let seconds := (remaining - 60 * ((remaining / 60).floor : ℚ)).floor
      pad2 minutes.toNat ++ ":" ++ pad2 seconds.toNat

/-! ### Scheduler properties -/

/-- C8: calling `start` while the scheduler is already running is a silent
no-op: it returns immediately and leaves the whole scheduler state (running
flag, interval, next sync time, stop signal, wait loop) unchanged. -/
theorem start_while_running_is_noop (s : SchedulerState) (intervalMinutes : ℕ)
    (h : s.is_running = true) : schedStart s intervalMinutes = s := by
  unfold schedStart
  simp [h]

theorem start_while_running_is_noop_witness :
    ({ is_running := true, interval_minutes := 30, next_sync_time := some 120,
       stop_event := false, loop_active := true } : SchedulerState).is_running = true ∧
    schedStart { is_running := true, interval_minutes := 30, next_sync_time := some 120,
                 stop_event := false, loop_active := true } 5 =
      { is_running := true, interval_minutes := 30, next_sync_time := some 120,
        stop_event := false, loop_active := true } :=
  ⟨rfl, start_while_running_is_noop _ 5 rfl⟩

/-- A scheduler running with a 30-minute interval whose `_run_loop` thread
is about to evaluate the `while` guard (main.py:532). -/
def runningSystem : SchedulerSystem :=
  { sched := { is_running := true, interval_minutes := 30, next_sync_time := none,
               stop_event := false, loop_active := true },
    pc := LoopPc.atGuard }

section
attribute [local semireducible] Rat.add Rat.sub Rat.mul Rat.inv

/-- C9: the claimed property fails on the code. `stop()` does clear
`next_sync_time`, but the clearing is not permanent: when the `_run_loop`
thread is preempted between the `while` guard (main.py:532) and the
`next_sync_time` assignment (main.py:533) and `stop()` runs to completion in
that window, the resumed thread re-populates `next_sync_time` after `stop()`
cleared it, then exits at its next stop-signal check (line 537) without ever
clearing it again — so every later `get_remaining_time()` call returns a
stale `MM:SS` countdown (here `"30:00"`), never the stopped sentinel
`"--:--"` that the claim and the spec require. The trace below evaluates the
code at that interleaving: guard step at instant 0, `stop()`, assignment
step at instant 100, one wait tick (loop exits). -/
theorem stale_countdown_after_stop :
    (sysStop (loopStep 0 runningSystem)).sched.next_sync_time = none ∧
    (loopStep 100 (loopStep 100 (sysStop (loopStep 0 runningSystem)))).pc =
      LoopPc.exited ∧
    (loopStep 100 (loopStep 100 (sysStop (loopStep 0 runningSystem)))).sched.is_running
      = false ∧
    (loopStep 100 (loopStep 100 (sysStop (loopStep 0 runningSystem)))).sched.next_sync_time
      = some 1900 ∧
    getRemainingTime
      (loopStep 100 (loopStep 100 (sysStop (loopStep 0 runningSystem)))).sched 100 =
      "30:00" ∧
    getRemainingTime
      (loopStep 100 (loopStep 100 (sysStop (loopStep 0 runningSystem)))).sched 100 ≠
      "--:--" := by
  decide

end

/-! ### SyncEngine properties -/

lemma syncStep_foldl (existing : List String) (createOk : Roundtrip → Bool)
    (rts : List Roundtrip) : ∀ s0 : SyncStats,
    rts.foldl (syncStep existing createOk) s0 =
      ⟨s0.created + rts.countP (fun rt => !decide (rtKey rt ∈ existing) && createOk rt),
       s0.skipped + rts.countP (fun rt => decide (rtKey rt ∈ existing)),
       s0.errors + rts.countP (fun rt => !decide (rtKey rt ∈ existing) && !createOk rt)⟩ := by
  induction rts with
  | nil => intro s0; simp
  | cons rt rest ih =>
    intro s0
    rw [List.foldl_cons, ih]
    unfold syncStep
    by_cases h1 : rtKey rt ∈ existing
    · simp [h1, List.countP_cons, SyncStats.mk.injEq]
      omega
    · by_cases h2 : createOk rt <;>
        simp [h1, h2, List.countP_cons, SyncStats.mk.injEq] <;> omega

lemma countP_three_way (p q : Roundtrip → Bool) (rts : List Roundtrip) :
    rts.countP (fun rt => !p rt && q rt) + rts.countP p +
      rts.countP (fun rt => !p rt && !q rt) = rts.length := by
  induction rts with
  | nil => simp
  | cons rt rest ih =>
    simp only [List.countP_cons, List.length_cons]
    by_cases h1 : p rt <;> by_cases h2 : q rt <;> simp [h1, h2] <;> omega

/-- C7: with `skip_existing = true`, a failing existence query aborts the
whole sync call (the exception propagates, no counter triple); a successful
query never aborts: the call returns the counter triple in which each
round-trip is tallied, in order, as skipped when its key is in the existing
set, as created when its create succeeds and as an error when its create
fails — a create failure never stops the batch. -/
theorem sync_error_tallying (e : String) (E : List String)
    (createOk : Roundtrip → Bool) (rts : List Roundtrip) :
    syncRoundtrips (Except.error e) createOk rts true = Except.error e ∧
    syncRoundtrips (Except.ok E) createOk rts true =
      Except.ok ⟨rts.countP (fun rt => !decide (rtKey rt ∈ E) && createOk rt),
                 rts.countP (fun rt => decide (rtKey rt ∈ E)),
                 rts.countP (fun rt => !decide (rtKey rt ∈ E) && !createOk rt)⟩ := by
  constructor
  · rfl
  · show Except.ok _ = _
    rw [syncStep_foldl]
    simp

/-- C10: whenever the existence query succeeds, the returned counters
partition the input: `created + skipped + errors` equals the number of
round-trips handed to `sync_roundtrips` (each count is a natural number,
hence non-negative). -/
theorem sync_counts_partition_input (E : List String)
    (createOk : Roundtrip → Bool) (rts : List Roundtrip) (skipExisting : Bool) :
    ∃ s, syncRoundtrips (Except.ok E) createOk rts skipExisting = Except.ok s ∧
      s.created + s.skipped + s.errors = rts.length := by
  cases skipExisting with
  | false =>
    refine ⟨_, rfl, ?_⟩
    rw [syncStep_foldl]
    simpa using countP_three_way (fun rt => decide (rtKey rt ∈ ([] : List String)))
      createOk rts
  | true =>
    refine ⟨_, rfl, ?_⟩
    rw [syncStep_foldl]
    simpa using countP_three_way (fun rt => decide (rtKey rt ∈ E)) createOk rts

/-- C4: on a second run of `sync_roundtrips` with the same round-trip set and
`skip_existing = true`, against an existing-key set that contains the first
run's key set and the keys the first run successfully wrote (and with the
same per-record create outcome), nothing is created: every round-trip is
either skipped or tallied as the same error again. -/
theorem sync_second_run_creates_nothing (rts : List Roundtrip)
    (createOk : Roundtrip → Bool) (E0 E1 : List String)
    (hE0 : ∀ k ∈ E0, k ∈ E1)
    (hsucc : ∀ k ∈ successfulKeys E0 createOk rts, k ∈ E1) :
    ∃ s, syncRoundtrips (Except.ok E1) createOk rts true = Except.ok s ∧
      s.created = 0 := by
  refine ⟨_, rfl, ?_⟩
  show (List.foldl (syncStep E1 createOk) ⟨0, 0, 0⟩ rts).created = 0
  rw [syncStep_foldl]
  show 0 + rts.countP (fun rt => !decide (rtKey rt ∈ E1) && createOk rt) = 0
  rw [Nat.zero_add, List.countP_eq_zero]
  intro rt hmem hpred
  rw [Bool.and_eq_true, Bool.not_eq_true', decide_eq_false_iff_not] at hpred
  by_cases h0 : rtKey rt ∈ E0
  · exact hpred.1 (hE0 _ h0)
  · refine hpred.1 (hsucc _ ?_)
    refine List.mem_map_of_mem rtKey ?_
    rw [List.mem_filter]
    refine ⟨hmem, ?_⟩
    rw [Bool.and_eq_true, Bool.not_eq_true', decide_eq_false_iff_not]
    exact ⟨h0, hpred.2⟩

/-- Sample round-trip record for concrete instantiations (entry leg id 1,
exit leg id 2, so its idempotency key is `"1-2"`). -/
def sampleRt : Roundtrip :=
  { roundtrip_id := 1, contract := "MNQ", contract_id := "CON.F.US.MNQ.Z25",
    direction := "LONG", size := 2,
    entry := { trade_id := 1, order_id := 10, timestamp := 0, price := 100,
               side := "BUY", fees := 1 },
    exit := { trade_id := 2, order_id := 11, timestamp := 10, price := 105,
              side := "SELL", fees := 1 },
    pnl := 10, total_fees := 2, net_pnl := 8, points := 5,
    duration_seconds := 10, duration_formatted := "10秒" }

theorem sync_second_run_creates_nothing_witness :
    (∀ k ∈ ([] : List String), k ∈ ["1-2"]) ∧
    (∀ k ∈ successfulKeys [] (fun _ => true) [sampleRt], k ∈ ["1-2"]) ∧
    ∃ s, syncRoundtrips (Except.ok ["1-2"]) (fun _ => true) [sampleRt] true =
      Except.ok s ∧ s.created = 0 :=
  ⟨by simp, by decide,
   sync_second_run_creates_nothing [sampleRt] (fun _ => true) [] ["1-2"]
     (by simp) (by decide)⟩

/-! ### Aggregator properties -/

/-- C5 (counterexample): on the empty round-trip collection `get_statistics`
returns the empty dict `{}` (modelled `none`), not an all-zero statistics
record — the claimed all-zero struct is not produced. -/
theorem getStatistics_empty_is_empty_dict : getStatistics [] [] [] = none := rfl

/-- C5 (amended): for the empty round-trip collection the Aggregator returns
the empty result `{}` — an absent statistics record (`none`) with no fields —
whatever the open-position and unmatched-exit lists are. -/
theorem getStatistics_empty_returns_none
    (openPositions unmatchedExits : List Trade) :
    getStatistics [] openPositions unmatchedExits = none := rfl

/-- C6: for every non-empty round-trip collection the statistics are produced
and `profit_factor` is `grossProfit / grossLoss` rounded to 2 decimals when
`grossLoss > 0` and exactly `0` when `grossLoss = 0` — in particular exactly
`0` when there are no losing trades — never an infinity or a NaN (the
division is only taken under the `grossLoss > 0` guard). -/
theorem profit_factor_never_infinite (rts : List Roundtrip)
    (openPositions unmatchedExits : List Trade) (hne : rts ≠ []) :
    ∃ s, getStatistics rts openPositions unmatchedExits = some s ∧
      (0 < grossLoss rts →
        s.profit_factor = round2 (grossProfit rts / grossLoss rts)) ∧
      (grossLoss rts = 0 → s.profit_factor = 0) ∧
      ((∀ rt ∈ rts, 0 ≤ rt.pnl) → s.profit_factor = 0) := by
  match rts, hne with
  | rt :: rest, _ =>
    refine ⟨_, rfl, ?_, ?_, ?_⟩
    · intro h
      show (if 0 < grossLoss (rt :: rest) then
        round2 (grossProfit (rt :: rest) / grossLoss (rt :: rest)) else 0) = _
      rw [if_pos h]
    · intro h
      show (if 0 < grossLoss (rt :: rest) then
        round2 (grossProfit (rt :: rest) / grossLoss (rt :: rest)) else 0) = 0
      rw [if_neg (by rw [h]; exact lt_irrefl 0)]
    · intro h
      have hz : grossLoss (rt :: rest) = 0 := by
        unfold grossLoss
        have : (rt :: rest).filter (fun rt => decide (rt.pnl < 0)) = [] := by
          rw [List.filter_eq_nil_iff]
          intro a ha
          rw [decide_eq_true_eq]
          exact not_lt.mpr (h a ha)
        rw [this]
        simp
      show (if 0 < grossLoss (rt :: rest) then
        round2 (grossProfit (rt :: rest) / grossLoss (rt :: rest)) else 0) = 0
      rw [if_neg (by rw [hz]; exact lt_irrefl 0)]

theorem profit_factor_never_infinite_witness :
    ([sampleRt] ≠ ([] : List Roundtrip)) ∧
    ∃ s, getStatistics [sampleRt] [] [] = some s ∧
      (0 < grossLoss [sampleRt] →
        s.profit_factor = round2 (grossProfit [sampleRt] / grossLoss [sampleRt])) ∧
      (grossLoss [sampleRt] = 0 → s.profit_factor = 0) ∧
      ((∀ rt ∈ [sampleRt], 0 ≤ rt.pnl) → s.profit_factor = 0) :=
  ⟨by simp, profit_factor_never_infinite [sampleRt] [] [] (by simp)⟩

/-! ### Matcher properties -/

/-- The code's matching test on a queue entry (roundtrip_transformer.py:146-147):
different `side`, equal `size`. -/
def entryMatches (exitTrade e : Trade) : Bool :=
  decide (e.side ≠ exitTrade.side) && decide (e.size = exitTrade.size)

lemma findMatchingEntry_eq (q : List Trade) (x : Trade) :
    findMatchingEntry q x =
      (q.find? (entryMatches x)).map (fun e => (e, q.eraseP (entryMatches x))) := by
  induction q with
  | nil => rfl
  | cons e rest ih =>
    by_cases h : e.side ≠ x.side ∧ e.size = x.size
    · have hp : entryMatches x e = true := by
        unfold entryMatches
        simp [h.1, h.2]
      unfold findMatchingEntry
      rw [if_pos h, List.find?_cons_of_pos _ hp, List.eraseP_cons_of_pos hp]
      rfl
    · have hp : entryMatches x e = false := by
        unfold entryMatches
        rcases not_and_or.mp h with h1 | h2
        · simp [not_not.mp (fun hne => h1 hne)]
        · simp [h2]
      unfold findMatchingEntry
      rw [if_neg h, ih, List.find?_cons_of_neg _ (by simp [hp]),
        List.eraseP_cons_of_neg (by simp [hp])]
      cases hfind : rest.find? (entryMatches x) <;> rfl

lemma processExits_step_found {queue : List Trade} {x : Trade} (xs : List Trade)
    {m : Trade} {q' : List Trade}
    (h : findMatchingEntry queue x = some (m, q')) :
    processExits queue (x :: xs) =
      ((m, x) :: (processExits q' xs).1,
       (processExits q' xs).2.1, (processExits q' xs).2.2) := by
  match queue, h with
  | e0 :: q0, h =>
    rw [processExits.eq_def]
    simp only [h]

lemma processExits_step_fallback {e0 : Trade} {q0 : List Trade} {x : Trade}
    (xs : List Trade) (h : findMatchingEntry (e0 :: q0) x = none) :
    processExits (e0 :: q0) (x :: xs) =
      ((e0, x) :: (processExits q0 xs).1,
       (processExits q0 xs).2.1, (processExits q0 xs).2.2) := by
  rw [processExits.eq_def]
  simp only [h]

lemma find?_congr_of_mem {α : Type} {p q : α → Bool} :
    ∀ {l : List α}, (∀ a ∈ l, p a = q a) → l.find? p = l.find? q
  | [], _ => rfl
  | a :: l, h => by
    have ha := h a (List.mem_cons_self a l)
    cases hpa : p a with
    | true =>
      rw [List.find?_cons_of_pos _ hpa, List.find?_cons_of_pos _ (ha ▸ hpa)]
    | false =>
      rw [List.find?_cons_of_neg _ (by simp [hpa]), List.find?_cons_of_neg _ (by simp [ha ▸ hpa])]
      exact find?_congr_of_mem (fun b hb => h b (List.mem_cons_of_mem a hb))

lemma eraseP_congr_of_mem {α : Type} {p q : α → Bool} :
    ∀ {l : List α}, (∀ a ∈ l, p a = q a) → l.eraseP p = l.eraseP q
  | [], _ => rfl
  | a :: l, h => by
    have ha := h a (List.mem_cons_self a l)
    cases hpa : p a with
    | true =>
      rw [List.eraseP_cons_of_pos hpa, List.eraseP_cons_of_pos (ha ▸ hpa)]
    | false =>
      rw [List.eraseP_cons_of_neg (by simp [hpa]), List.eraseP_cons_of_neg (by simp [ha ▸ hpa])]
      rw [eraseP_congr_of_mem (fun b hb => h b (List.mem_cons_of_mem a hb))]

/-- The opposite of a trade side in the two-valued BUY/SELL domain
(`0` = BUY, `1` = SELL): formalises the spec's “side opposite the exit's
side”. -/
def oppositeSide (side : ℕ) : ℕ := if side = 0 then 1 else 0

/-- The spec-worded matching test: `side` opposite to the exit's, equal
`size`. -/
def entryMatchesSpec (exitTrade e : Trade) : Bool :=
  decide (e.side = oppositeSide exitTrade.side) && decide (e.size = exitTrade.size)

lemma entryMatches_eq_spec {x e : Trade} (he : e.side = 0 ∨ e.side = 1)
    (hx : x.side = 0 ∨ x.side = 1) : entryMatches x e = entryMatchesSpec x e := by
  unfold entryMatches entryMatchesSpec oppositeSide
  rcases he with he | he <;> rcases hx with hx | hx <;>
    simp [he, hx]

/-- C2: when an exit is processed against a non-empty entry queue of
BUY/SELL trades, it is paired with the first entry in queue order whose side
is opposite the exit's and whose size equals the exit's (that entry is
removed from the queue), and when no queue entry passes that test it is
paired with the front (oldest) entry of the queue regardless of side and
size; the remainder of the run continues on the reduced queue. -/
theorem exit_paired_with_first_match (queue : List Trade) (x : Trade)
    (xs : List Trade) (hq : queue ≠ [])
    (hqs : ∀ e ∈ queue, e.side = 0 ∨ e.side = 1)
    (hx : x.side = 0 ∨ x.side = 1) :
    ∃ e queue',
      processExits queue (x :: xs) =
        ((e, x) :: (processExits queue' xs).1,
         (processExits queue' xs).2.1, (processExits queue' xs).2.2) ∧
      ((queue.find? (entryMatchesSpec x) = some e ∧
        queue' = queue.eraseP (entryMatchesSpec x)) ∨
       (queue.find? (entryMatchesSpec x) = none ∧
        queue.head? = some e ∧ queue' = queue.tail)) := by
  have hcong : ∀ a ∈ queue, entryMatches x a = entryMatchesSpec x a :=
    fun a ha => entryMatches_eq_spec (hqs a ha) hx
  have hfind := find?_congr_of_mem (l := queue) hcong
  have herase := eraseP_congr_of_mem (l := queue) hcong
  cases hfm : findMatchingEntry queue x with
  | some mq =>
    obtain ⟨m, q'⟩ := mq
    have hchar := hfm
    rw [findMatchingEntry_eq] at hchar
    cases hfq : queue.find? (entryMatches x) with
    | none => rw [hfq] at hchar; exact absurd hchar (by simp)
    | some m' =>
      rw [hfq] at hchar
      simp at hchar
      refine ⟨m, q', processExits_step_found xs hfm, Or.inl ?_⟩
      rw [← hfind, ← herase, hfq, hchar.1, hchar.2]
      exact ⟨rfl, rfl⟩
  | none =>
    match queue, hq with
    | e0 :: q0, _ =>
      refine ⟨e0, q0, processExits_step_fallback xs hfm, Or.inr ?_⟩
      have hchar := hfm
      rw [findMatchingEntry_eq] at hchar
      cases hfq : (e0 :: q0).find? (entryMatches x) with
      | some m' => rw [hfq] at hchar; exact absurd hchar (by simp)
      | none =>
        rw [← hfind, hfq]
        exact ⟨rfl, rfl, rfl⟩

/-- Concrete opening leg for the matching-policy instantiation. -/
def c2entry : Trade :=
  { id := 1, orderId := 10, contractId := "C", side := 0, size := 2, price := 100,
    fees := 0, creationTimestamp := 0, profitAndLoss := none }

/-- Concrete closing leg for the matching-policy instantiation. -/
def c2exit : Trade :=
  { id := 2, orderId := 11, contractId := "C", side := 1, size := 2, price := 105,
    fees := 0, creationTimestamp := 1, profitAndLoss := some 10 }

theorem exit_paired_with_first_match_witness :
    ([c2entry] ≠ ([] : List Trade)) ∧
    (∀ e ∈ ([c2entry] : List Trade), e.side = 0 ∨ e.side = 1) ∧
    (c2exit.side = 0 ∨ c2exit.side = 1) ∧
    ∃ e queue',
      processExits [c2entry] (c2exit :: []) =
        ((e, c2exit) :: (processExits queue' []).1,
         (processExits queue' []).2.1, (processExits queue' []).2.2) ∧
      (([c2entry].find? (entryMatchesSpec c2exit) = some e ∧
        queue' = [c2entry].eraseP (entryMatchesSpec c2exit)) ∨
       ([c2entry].find? (entryMatchesSpec c2exit) = none ∧
        [c2entry].head? = some e ∧ queue' = [c2entry].tail)) :=
  ⟨by simp, by decide, by decide,
   exit_paired_with_first_match [c2entry] c2exit [] (by simp) (by decide) (by decide)⟩

/-- The opening leg of the spec's worked round-trip example (§8):
`{id:1, side:BUY, size:2, price:100, ts:t0, pnl:null}` with fees 0.5. -/
def c3entry : Trade :=
  { id := 1, orderId := 10, contractId := "CON.F.US.MNQ.Z25", side := 0, size := 2,
    price := 100, fees := 1/2, creationTimestamp := 0, profitAndLoss := none }

/-- The closing leg of the spec's worked round-trip example (§8):
`{id:2, side:SELL, size:2, price:105, ts:t1, pnl:10.0, fees:0.5}`. -/
def c3exit : Trade :=
  { id := 2, orderId := 11, contractId := "CON.F.US.MNQ.Z25", side := 1, size := 2,
    price := 105, fees := 1/2, creationTimestamp := 10, profitAndLoss := some 10 }

section
attribute [local semireducible] Rat.add Rat.sub Rat.mul Rat.inv

/-- C3: a derived round-trip has direction LONG exactly when the entry side
is BUY (`0`), points `exit.price − entry.price` for LONG and
`entry.price − exit.price` for SHORT rounded to 2 decimals, total fees
`entry.fees + exit.fees`, pnl taken from the exit's `realizedPnl`, and net
pnl `pnl − totalFees` rounded to 2 decimals; on the spec's worked example
the Matcher yields exactly one round-trip with direction LONG, points 5.0,
total fees 1.0, pnl 10.0 and net pnl 9.0. -/
theorem roundtrip_field_derivation (rid : ℕ) (cid : String)
    (entryTrade exitTrade : Trade) (p : ℚ)
    (hpnl : exitTrade.profitAndLoss = some p) :
    ((createRoundtrip rid cid entryTrade exitTrade).direction = "LONG" ↔
      entryTrade.side = 0) ∧
    ((createRoundtrip rid cid entryTrade exitTrade).direction = "LONG" →
      (createRoundtrip rid cid entryTrade exitTrade).points =
        round2 (exitTrade.price - entryTrade.price)) ∧
    ((createRoundtrip rid cid entryTrade exitTrade).direction ≠ "LONG" →
      (createRoundtrip rid cid entryTrade exitTrade).direction = "SHORT" ∧
      (createRoundtrip rid cid entryTrade exitTrade).points =
        round2 (entryTrade.price - exitTrade.price)) ∧
    (createRoundtrip rid cid entryTrade exitTrade).total_fees =
      entryTrade.fees + exitTrade.fees ∧
    (createRoundtrip rid cid entryTrade exitTrade).pnl = p ∧
    (createRoundtrip rid cid entryTrade exitTrade).net_pnl =
      round2 (p - (entryTrade.fees + exitTrade.fees)) ∧
    (transform [c3entry, c3exit]).map
      (fun rt => (rt.direction, rt.points, rt.total_fees, rt.pnl, rt.net_pnl)) =
      [("LONG", 5, 1, 10, 9)] := by
  unfold createRoundtrip
  by_cases hside : entryTrade.side = 0 <;>
    simp [hside, hpnl] <;> decide

end

theorem roundtrip_field_derivation_witness :
    c3exit.profitAndLoss = some 10 ∧
    (createRoundtrip 1 "CON.F.US.MNQ.Z25" c3entry c3exit).pnl = 10 :=
  ⟨rfl, (roundtrip_field_derivation 1 "CON.F.US.MNQ.Z25" c3entry c3exit 10 rfl).2.2.2.2.1⟩

lemma findMatchingEntry_perm {q : List Trade} {x : Trade} {e : Trade}
    {q' : List Trade} (h : findMatchingEntry q x = some (e, q')) :
    q.Perm (e :: q') := by
  induction q generalizing e q' with
  | nil => exact absurd h (by simp [findMatchingEntry])
  | cons e0 rest ih =>
    rw [findMatchingEntry] at h
    by_cases hm : e0.side ≠ x.side ∧ e0.size = x.size
    · rw [if_pos hm] at h
      simp only [Option.some.injEq, Prod.mk.injEq] at h
      rw [h.1, h.2]
    · rw [if_neg hm] at h
      cases hfm : findMatchingEntry rest x with
      | none => rw [hfm] at h; exact absurd h (by simp)
      | some mq =>
        obtain ⟨m, rest'⟩ := mq
        rw [hfm] at h
        simp only [Option.some.injEq, Prod.mk.injEq] at h
        rw [← h.1, ← h.2]
        exact ((ih hfm).cons e0).trans (List.Perm.swap m e0 rest')

lemma processExits_perm (xs : List Trade) : ∀ q : List Trade,
    q.Perm ((processExits q xs).1.map Prod.fst ++ (processExits q xs).2.1) ∧
    xs.Perm ((processExits q xs).1.map Prod.snd ++ (processExits q xs).2.2) := by
  induction xs with
  | nil =>
    intro q
    exact ⟨List.Perm.refl q, List.Perm.refl []⟩
  | cons x rest ih =>
    intro q
    match q with
    | [] =>
      have h0 := ih []
      constructor
      · exact h0.1
      · exact ((h0.2.cons x).trans List.perm_middle.symm)
    | e0 :: q0 =>
      cases hfm : findMatchingEntry (e0 :: q0) x with
      | some mq =>
        obtain ⟨m, q1⟩ := mq
        rw [processExits_step_found rest hfm]
        have h1 := ih q1
        constructor
        · exact (findMatchingEntry_perm hfm).trans (h1.1.cons m)
        · exact h1.2.cons x
      | none =>
        rw [processExits_step_fallback rest hfm]
        have h1 := ih q0
        exact ⟨h1.1.cons e0, h1.2.cons x⟩

lemma mem_insertKey_self (ks : List String) (k : String) : k ∈ insertKey ks k := by
  unfold insertKey
  by_cases h : k ∈ ks
  · rw [if_pos h]; exact h
  · rw [if_neg h]; exact List.mem_append_right ks (List.mem_singleton.mpr rfl)

lemma mem_insertKey_of_mem {ks : List String} {a : String} (k : String)
    (h : a ∈ ks) : a ∈ insertKey ks k := by
  unfold insertKey
  by_cases hk : k ∈ ks
  · rw [if_pos hk]; exact h
  · rw [if_neg hk]; exact List.mem_append_left _ h

lemma insertKey_nodup {ks : List String} (k : String) (h : ks.Nodup) :
    (insertKey ks k).Nodup := by
  unfold insertKey
  by_cases hk : k ∈ ks
  · rw [if_pos hk]; exact h
  · rw [if_neg hk]
    rw [List.nodup_append]
    refine ⟨h, List.nodup_singleton k, ?_⟩
    intro a ha hb
    rw [List.mem_singleton] at hb
    exact hk (hb ▸ ha)

lemma foldl_insertKey_mem (l : List Trade) : ∀ {ks : List String} {a : String},
    a ∈ ks → a ∈ l.foldl (fun ks t => insertKey ks t.contractId) ks := by
  induction l with
  | nil => intro ks a h; exact h
  | cons t rest ih =>
    intro ks a h
    exact ih (mem_insertKey_of_mem t.contractId h)

lemma contractKeys_nodup (trades : List Trade) : (contractKeys trades).Nodup := by
  unfold contractKeys
  suffices h : ∀ (l : List Trade) (ks : List String), ks.Nodup →
      (l.foldl (fun ks t => insertKey ks t.contractId) ks).Nodup by
    exact h trades [] List.nodup_nil
  intro l
  induction l with
  | nil => intro ks h; exact h
  | cons t rest ih => intro ks h; exact ih _ (insertKey_nodup t.contractId h)

lemma contractKeys_complete {trades : List Trade} {t : Trade} (h : t ∈ trades) :
    t.contractId ∈ contractKeys trades := by
  unfold contractKeys
  suffices hs : ∀ (l : List Trade) (ks : List String) (t : Trade), t ∈ l →
      t.contractId ∈ l.foldl (fun ks t => insertKey ks t.contractId) ks by
    exact hs trades [] t h
  intro l
  induction l with
  | nil => intro ks t h; exact absurd h (List.not_mem_nil t)
  | cons u rest ih =>
    intro ks t h
    rw [List.foldl_cons]
    rcases List.mem_cons.mp h with h | h
    · rw [h]
      exact foldl_insertKey_mem rest (mem_insertKey_self ks u.contractId)
    · exact ih _ t h

lemma filter_keys_perm : ∀ (ks : List String) (l : List Trade), ks.Nodup →
    (∀ t ∈ l, t.contractId ∈ ks) →
    ((ks.map (fun k => l.filter (fun t => t.contractId = k))).flatten).Perm l := by
  intro ks
  induction ks with
  | nil =>
    intro l _ hcov
    have : l = [] := List.eq_nil_iff_forall_not_mem.mpr
      (fun t ht => absurd (hcov t ht) (List.not_mem_nil _))
    rw [this]
    exact List.Perm.refl _
  | cons k ks' ih =>
    intro l hnd hcov
    rw [List.map_cons, List.flatten_cons]
    have hk_notmem : k ∉ ks' := (List.nodup_cons.mp hnd).1
    have hnd' : ks'.Nodup := (List.nodup_cons.mp hnd).2
    have hmapeq : ks'.map (fun k' => l.filter (fun t => t.contractId = k')) =
        ks'.map (fun k' =>
          (l.filter (fun t => !decide (t.contractId = k))).filter
            (fun t => t.contractId = k')) := by
      refine List.map_congr_left ?_
      intro k' hk'
      rw [List.filter_filter]
      refine (List.filter_congr ?_).symm
      intro t _
      by_cases hc : t.contractId = k'
      · have hck : ¬(t.contractId = k) := by
          intro hck
          exact hk_notmem ((hc.symm.trans hck) ▸ hk')
        have hkk : ¬(k' = k) := fun hkk => hck (hc.trans hkk)
        simp [hc, hck, hkk]
      · simp [hc]
    rw [hmapeq]
    have hcov' : ∀ t ∈ l.filter (fun t => !decide (t.contractId = k)),
        t.contractId ∈ ks' := by
      intro t ht
      have hmem := List.mem_filter.mp ht
      have hne : ¬(t.contractId = k) := by
        have := hmem.2
        simpa using this
      rcases List.mem_cons.mp (hcov t hmem.1) with h | h
      · exact absurd h hne
      · exact h
    have hperm := ih (l.filter (fun t => !decide (t.contractId = k))) hnd' hcov'
    exact List.Perm.trans (List.Perm.append_left _ hperm) (List.filter_append_perm _ l)

lemma groupByContract_flatten_perm (trades : List Trade) :
    (((groupByContract trades).map (fun g => g.2)).flatten).Perm trades := by
  unfold groupByContract
  rw [List.map_map]
  exact filter_keys_perm (contractKeys trades) trades (contractKeys_nodup trades)
    (fun t ht => contractKeys_complete ht)

lemma processContract_perm (ct : List Trade) :
    (ct.filter (fun t => t.profitAndLoss.isNone)).Perm
      ((processContract ct).1.map Prod.fst ++ (processContract ct).2.1) ∧
    (ct.filter (fun t => t.profitAndLoss.isSome)).Perm
      ((processContract ct).1.map Prod.snd ++ (processContract ct).2.2) := by
  have heq : processContract ct =
      processExits ((ct.insertionSort tsLe).filter (fun t => t.profitAndLoss.isNone))
        ((ct.insertionSort tsLe).filter (fun t => t.profitAndLoss.isSome)) := rfl
  rw [heq]
  have hsort : (ct.insertionSort tsLe).Perm ct := List.perm_insertionSort tsLe ct
  have hpe := processExits_perm
    ((ct.insertionSort tsLe).filter (fun t => t.profitAndLoss.isSome))
    ((ct.insertionSort tsLe).filter (fun t => t.profitAndLoss.isNone))
  exact ⟨(hsort.symm.filter _).trans hpe.1, (hsort.symm.filter _).trans hpe.2⟩

lemma flatten_map_perm {α β : Type} (gs : List α) (F G : α → List β)
    (h : ∀ g ∈ gs, (F g).Perm (G g)) :
    ((gs.map F).flatten).Perm ((gs.map G).flatten) := by
  induction gs with
  | nil => exact List.Perm.refl []
  | cons a gs ih =>
    rw [List.map_cons, List.map_cons, List.flatten_cons, List.flatten_cons]
    exact (h a (List.mem_cons_self a gs)).append
      (ih (fun g hg => h g (List.mem_cons_of_mem a hg)))

lemma flatten_map_append_perm {α β : Type} (gs : List α) (F G : α → List β) :
    ((gs.map (fun a => F a ++ G a)).flatten).Perm
      ((gs.map F).flatten ++ (gs.map G).flatten) := by
  induction gs with
  | nil => exact List.Perm.refl []
  | cons a gs ih =>
    rw [List.map_cons, List.map_cons, List.map_cons, List.flatten_cons,
      List.flatten_cons, List.flatten_cons]
    refine (List.Perm.append_left _ ih).trans ?_
    rw [List.append_assoc, List.append_assoc]
    exact List.Perm.append_left (F a) (List.perm_append_comm_assoc (G a) _ _)

lemma matchTrades_pairs_map_eq (trades : List Trade) (f : Trade × Trade → Trade)
    (g : String × Trade × Trade → Trade) (hfg : ∀ c p, g (c, p) = f p) :
    (matchTrades trades).1.map g =
      ((groupByContract trades).map
        (fun grp => (processContract grp.2).1.map f)).flatten := by
  show (((groupByContract trades).map _).map _).flatten.map g = _
  rw [List.map_map, List.map_flatten, List.map_map]
  refine congrArg List.flatten (List.map_congr_left ?_)
  intro grp _
  show ((processContract grp.2).1.map (fun p => (grp.1, p))).map g =
    (processContract grp.2).1.map f
  rw [List.map_map]
  exact List.map_congr_left (fun p _ => hfg grp.1 p)

lemma matchTrades_opens_eq (trades : List Trade) :
    (matchTrades trades).2.1 =
      ((groupByContract trades).map (fun grp => (processContract grp.2).2.1)).flatten := by
  show (((groupByContract trades).map _).map _).flatten = _
  rw [List.map_map]
  rfl

lemma matchTrades_unmatched_eq (trades : List Trade) :
    (matchTrades trades).2.2 =
      ((groupByContract trades).map (fun grp => (processContract grp.2).2.2)).flatten := by
  show (((groupByContract trades).map _).map _).flatten = _
  rw [List.map_map]
  rfl

lemma trades_filter_perm_flatten (trades : List Trade) (p : Trade → Bool) :
    (trades.filter p).Perm
      (((groupByContract trades).map (fun grp => (grp.2).filter p)).flatten) := by
  have h0 := ((groupByContract_flatten_perm trades).filter p).symm
  rw [List.filter_flatten, List.map_map] at h0
  exact h0

/-- C1: the Matcher partitions the legs. As multisets, the closing legs of
the input (trades with `profitAndLoss` present) are exactly the exits of the
produced pairs together with the unmatched-exit list, and the opening legs
(`profitAndLoss` absent) are exactly the entries consumed by the pairs
together with the open-position list — so every closing leg lands in exactly
one round-trip or unmatched-exit slot, and every opening leg is consumed by
exactly one round-trip or stays an open position; the final `transform`
output is exactly the round-trip records derived from those pairs (reordered
by exit timestamp). -/
theorem matchTrades_partitions_legs (trades : List Trade) :
    (trades.filter (fun t => t.profitAndLoss.isSome)).Perm
      ((matchTrades trades).1.map (fun p => p.2.2) ++ (matchTrades trades).2.2) ∧
    (trades.filter (fun t => t.profitAndLoss.isNone)).Perm
      ((matchTrades trades).1.map (fun p => p.2.1) ++ (matchTrades trades).2.1) ∧
    (transform trades).Perm (mkRoundtrips (matchTrades trades).1) := by
  refine ⟨?_, ?_, List.perm_insertionSort rtLe _⟩
  · have h0 := trades_filter_perm_flatten trades (fun t => t.profitAndLoss.isSome)
    have h1 := flatten_map_perm (groupByContract trades)
      (fun grp => (grp.2).filter (fun t => t.profitAndLoss.isSome))
      (fun grp => (processContract grp.2).1.map Prod.snd ++ (processContract grp.2).2.2)
      (fun grp _ => (processContract_perm grp.2).2)
    have h2 := flatten_map_append_perm (groupByContract trades)
      (fun grp => (processContract grp.2).1.map Prod.snd)
      (fun grp => (processContract grp.2).2.2)
    rw [matchTrades_pairs_map_eq trades Prod.snd (fun p => p.2.2) (fun c p => rfl),
      matchTrades_unmatched_eq]
    exact (h0.trans h1).trans h2
  · have h0 := trades_filter_perm_flatten trades (fun t => t.profitAndLoss.isNone)
    have h1 := flatten_map_perm (groupByContract trades)
      (fun grp => (grp.2).filter (fun t => t.profitAndLoss.isNone))
      (fun grp => (processContract grp.2).1.map Prod.fst ++ (processContract grp.2).2.1)
      (fun grp _ => (processContract_perm grp.2).1)
    have h2 := flatten_map_append_perm (groupByContract trades)
      (fun grp => (processContract grp.2).1.map Prod.fst)
      (fun grp => (processContract grp.2).2.1)
    rw [matchTrades_pairs_map_eq trades Prod.fst (fun p => p.2.1) (fun c p => rfl),
      matchTrades_opens_eq]
    exact (h0.trans h1).trans h2
